import Mathlib

/-
Verification of the Food-truck order CRUD backend.

The program under study is the Order Store API: the request handler in
src/api/index.js (second document, lines 156-342) and, identically, in
src/unnamed/part_000 (first document, lines 1-221).  That is the variant
the specification's data-model and endpoint descriptions were written
from (explicit defaults on create, Vercel KV storage).  The legacy
express variant in src/server.js spreads the request body without field
defaults but forces status and createdAt the same way.

Modelling conventions:
- JavaScript timestamps (Date.now(), ISO-8601 strings at millisecond
  precision) are represented by their epoch-millisecond value as a Nat;
  comparing two ISO strings of the same clock agrees with comparing the
  Nat instants.
- The locale-formatted time and date strings produced by the server are
  carried opaquely in a Clock record, one per request.
- A parsed JSON request body is a record of Option fields: none models a
  key absent from the JSON object.
- The external KV store is modelled by passing the current stored
  collection in, and returning the write the handler attempts (if any);
  a Bool says whether kv.set succeeds.  readOrders failure and a missing
  key are the StoreRead constructors.
-/

namespace FoodTruck

/-- A line item of an order.  The server treats items as opaque data
passed through unvalidated; name and quantity suffice for the model. -/
structure Item where
  name : String
  qty : Nat
  deriving DecidableEq, Repr

/-- An Order record as stored in the collection, after the shape built by
the POST handler (src/api/index.js lines 237-248).  createdAt and
updatedAt are epoch-millisecond instants standing for the ISO strings;
updatedAt is absent until the first PATCH. -/
structure Order where
  id : Nat
  items : List Item
  total : Int
  type : String
  customerName : String
  customerPhone : String
  timestamp : String
  date : String
  status : String
  createdAt : Nat
  updatedAt : Option Nat
  deriving DecidableEq, Repr

/-- A parsed JSON request body: each recognised Order key is present
(some) or absent (none).  JSON.parse output is an arbitrary object; only
the keys the handler ever reads or merges are modelled. -/
structure Body where
  id : Option Nat
  items : Option (List Item)
  total : Option Int
  type : Option String
  customerName : Option String
  customerPhone : Option String
  timestamp : Option String
  date : Option String
  status : Option String
  createdAt : Option Nat
  updatedAt : Option Nat
  deriving DecidableEq, Repr

/-- The body with every key absent: what parseBody yields for an empty
or unparseable request body. -/
def emptyBody : Body :=
  { id := none, items := none, total := none, type := none,
    customerName := none, customerPhone := none, timestamp := none,
    date := none, status := none, createdAt := none, updatedAt := none }

/-- The server's reading of the wall clock during one request:
Date.now() in milliseconds, plus the locale-formatted time and date
strings used as creation defaults. -/
structure Clock where
  nowMs : Nat
  localeTime : String
  localeDate : String
  deriving DecidableEq, Repr

/-- JavaScript `v || d` for an optional string field: an absent field
and the empty string are falsy, every other string is truthy. -/
def jsOrString : Option String → String → String
  | some s, d => if s = "" then d else s
  | none, d => d

/-- JavaScript `v || d` for an optional numeric field: absent and zero
are falsy. -/
def jsOrInt : Option Int → Int → Int
  | some n, d => if n = 0 then d else n
  | none, d => d

/-- JavaScript `v || d` for an optional array field: arrays are always
truthy, so a present list (even the empty one) is kept. -/
def jsOrList : Option (List Item) → List Item → List Item
  | some l, _ => l
  | none, d => d

/-- The JSON value of a response body: a single order, the order array,
an object with an error field, or an object with a message field. -/
inductive RespBody where
  | order (o : Order)
  | orders (os : List Order)
  | error (e : String)
  | message (m : String)
  deriving DecidableEq, Repr

/-- An HTTP response: status code and JSON body. -/
structure Response where
  status : Nat
  body : RespBody
  deriving DecidableEq, Repr

/-- Outcome of kv.get(ORDERS_KEY): the call threw, the key is unset
(null), or a stored collection came back. -/
inductive StoreRead where
  | failure
  | missing
  | value (os : List Order)
  deriving DecidableEq, Repr

/-- readOrders (src/api/index.js lines 163-171): kv.get wrapped in a
try/catch that degrades a thrown error to the empty collection, and
`orders || []` turning a null (missing key) into the empty collection. -/
def readOrders : StoreRead → List Order
  | .failure => []
  | .missing => []
  | .value os => os

/-- Outcome of reading and JSON-parsing the request body stream. -/
inductive RawBody where
  | ok (b : Body)
  | malformed
  deriving DecidableEq, Repr

/-- parseBody (src/api/index.js lines 162-176): JSON.parse of the
accumulated chunks, resolving the empty object when parsing throws. -/
def parseBody : RawBody → Body
  | .ok b => b
  | .malformed => emptyBody

/-- The durable collection after a handler runs: att is the argument the
handler passed to writeOrders (none when no write was attempted), and
writeOk is whether kv.set succeeded; a failed or absent write leaves the
stored collection unchanged. -/
def storeAfter (c : List Order) (writeOk : Bool) : Option (List Order) → List Order
  | some c' => if writeOk then c' else c
  | none => c

/-- The newOrder object built by POST /api/orders (src/api/index.js
lines 237-248): id from Date.now(), each client field defaulted with
JavaScript `||`, status forced to pending, createdAt stamped.  The body
status key is never read. -/
def newOrder (body : Body) (clock : Clock) : Order :=
  { id := clock.nowMs
    items := jsOrList body.items []
    total := jsOrInt body.total 0
    type := jsOrString body.type "eat"
    customerName := jsOrString body.customerName ""
    customerPhone := jsOrString body.customerPhone ""
    timestamp := jsOrString body.timestamp clock.localeTime
    date := jsOrString body.date clock.localeDate
    status := "pending"
    createdAt := clock.nowMs
    updatedAt := none }

/-- POST /api/orders (src/api/index.js lines 232-259): build newOrder,
push it, attempt the write; 201 with the order on success, 500 on write
failure.  The second component is the collection passed to
writeOrders. -/
def createOrder (c : List Order) (body : Body) (clock : Clock) (writeOk : Bool) :
    Response × Option (List Order) :=
  let o := newOrder body clock
  let c' := c ++ [o]
  if writeOk then
    ({ status := 201, body := .order o }, some c')
  else
    ({ status := 500, body := .error "Failed to save order" }, some c')

/-- GET /api/orders (src/api/index.js lines 227-230): 200 with whatever
readOrders produced. -/
def listOrders (r : StoreRead) : Response :=
  { status := 200, body := .orders (readOrders r) }

/-- GET /api/orders/:id (src/api/index.js lines 262-273): linear find by
id, 404 with an error field when absent. -/
def getOrder (c : List Order) (id : Nat) : Response :=
  match c.find? (fun o => o.id == id) with
  | some o => { status := 200, body := .order o }
  | none => { status := 404, body := .error "Order not found" }

/-- The object spread of PATCH /api/orders/:id (src/api/index.js lines
287-291): every key present in the body overwrites the stored order's
field - including id and createdAt, the merge is unguarded - and then
the updatedAt key written after the spread overwrites any body
updatedAt with the current instant. -/
def mergeOrder (o : Order) (body : Body) (clock : Clock) : Order :=
  { id := body.id.getD o.id
    items := body.items.getD o.items
    total := body.total.getD o.total
    type := body.type.getD o.type
    customerName := body.customerName.getD o.customerName
    customerPhone := body.customerPhone.getD o.customerPhone
    timestamp := body.timestamp.getD o.timestamp
    date := body.date.getD o.date
    status := body.status.getD o.status
    createdAt := body.createdAt.getD o.createdAt
    updatedAt := some clock.nowMs }

/-- PATCH /api/orders/:id (src/api/index.js lines 276-301): findIndex by
id (modelled by List.findIdx, which returns the length when no element
matches, as findIndex returns -1), 404 and no write when absent;
otherwise replace the order in place with the merge and attempt the
write, 200 with the merged order on success, 500 on write failure. -/
def patchOrder (c : List Order) (id : Nat) (body : Body) (clock : Clock) (writeOk : Bool) :
    Response × Option (List Order) :=
  let i := c.findIdx (fun o => o.id == id)
  if h : i < c.length then
    let merged := mergeOrder (c.get ⟨i, h⟩) body clock
    let c' := c.set i merged
    if writeOk then
      ({ status := 200, body := .order merged }, some c')
    else
      ({ status := 500, body := .error "Failed to update order" }, some c')
  else
    ({ status := 404, body := .error "Order not found" }, none)

/-- DELETE /api/orders/:id (src/api/index.js lines 304-322): filter out
every order with the id; if the length is unchanged nothing matched, 404
and no write; otherwise attempt to write the filtered collection. -/
def deleteOrder (c : List Order) (id : Nat) (writeOk : Bool) :
    Response × Option (List Order) :=
  let filtered := c.filter (fun o => o.id != id)
  if c.length = filtered.length then
    ({ status := 404, body := .error "Order not found" }, none)
  else if writeOk then
    ({ status := 200, body := .message "Order deleted successfully" }, some filtered)
  else
    ({ status := 500, body := .error "Failed to delete order" }, some filtered)

/-- DELETE /api/orders (src/api/index.js lines 325-329): write the empty
collection and answer 200 with a message.  The handler ignores the
boolean writeOrders returns, so the response does not depend on whether
the write succeeded. -/
def clearAllOrders : Response × Option (List Order) :=
  ({ status := 200, body := .message "All orders cleared" }, some [])

/-- One mutating request against the store, with the clock reading and
the kv.set outcome it experiences. -/
inductive Op where
  | create (body : Body) (clock : Clock) (writeOk : Bool)
  | patch (id : Nat) (body : Body) (clock : Clock) (writeOk : Bool)
  | delete (id : Nat) (writeOk : Bool)
  | clear (writeOk : Bool)
  deriving DecidableEq, Repr

/-- The durable stored collection after one request: the handler runs on
the collection read from the store and the attempted write lands only if
kv.set succeeds. -/
def applyOp (c : List Order) : Op → List Order
  | .create b k w => storeAfter c w (createOrder c b k w).2
  | .patch i b k w => storeAfter c w (patchOrder c i b k w).2
  | .delete i w => storeAfter c w (deleteOrder c i w).2
  | .clear w => storeAfter c w clearAllOrders.2

/-- The stored collection reached from the empty store by a sequence of
requests. -/
def run (ops : List Op) : List Order :=
  ops.foldl applyOp []

/-- The id-uniqueness invariant of the spec's data model. -/
def idsUnique (c : List Order) : Prop :=
  (c.map Order.id).Nodup

/-- The Date.now() values of the create requests of a trace, in
order. -/
def createTimes : List Op → List Nat
  | [] => []
  | .create _ k _ :: ops => k.nowMs :: createTimes ops
  | .patch _ _ _ _ :: ops => createTimes ops
  | .delete _ _ :: ops => createTimes ops
  | .clear _ :: ops => createTimes ops

/-- An operation whose body cannot overwrite a stored id: every
operation except a patch whose body carries an id key. -/
def keepsId : Op → Bool
  | .patch _ b _ _ => b.id.isNone
  | _ => true

/-- A clock reading carrying only the millisecond instant; the locale
strings are irrelevant to the properties that use it. -/
def clk (t : Nat) : Clock :=
  { nowMs := t, localeTime := "", localeDate := "" }

/-- A concrete stored order used as test data. -/
def orderA : Order :=
  { id := 1, items := [], total := 0, type := "eat", customerName := "",
    customerPhone := "", timestamp := "", date := "", status := "pending",
    createdAt := 10, updatedAt := none }

/-- A body that tries to overwrite the immutable-by-spec fields. -/
def overwritingBody : Body :=
  { emptyBody with id := some 2, createdAt := some 99 }

/-- A body carrying only a status key, as the kitchen client sends. -/
def readyBody : Body :=
  { emptyBody with status := some "ready" }

/-- A body carrying only a status key, used to show create ignores it. -/
def statusBody : Body :=
  { emptyBody with status := some "done" }

/-- Replacing an element of the collection by one with the same image
under f leaves the mapped collection unchanged. -/
theorem map_set_get_eq {β : Type} (f : Order → β) :
    ∀ (c : List Order) (i : Nat) (h : i < c.length) (x : Order),
      f x = f (c.get ⟨i, h⟩) → (c.set i x).map f = c.map f
  | [], i, h, _, _ => absurd h (Nat.not_lt_zero i)
  | a :: l, 0, _, x, hx => by
      simp only [List.set, List.map_cons]
      rw [show f x = f a from hx]
  | a :: l, n + 1, h, x, hx => by
      simp only [List.set, List.map_cons]
      rw [map_set_get_eq f l n (Nat.lt_of_succ_lt_succ h) x hx]

/-- findIdx returns the length (the model of findIndex returning -1)
when no element satisfies the predicate. -/
theorem findIdx_eq_length_of_all_false {p : Order → Bool} :
    ∀ c : List Order, (∀ o ∈ c, p o = false) → c.findIdx p = c.length
  | [], _ => rfl
  | a :: l, h => by
      rw [List.findIdx_cons, h a (List.mem_cons_self a l),
        findIdx_eq_length_of_all_false l (fun o ho => h o (List.mem_cons_of_mem a ho))]
      rfl

/-- A delete request can only remove orders: the resulting stored
collection is a sublist of the previous one, whatever the id and the
write outcome. -/
theorem delete_result_sublist (c : List Order) (i : Nat) (w : Bool) :
    (storeAfter c w (deleteOrder c i w).2).Sublist c := by
  simp only [deleteOrder]
  split
  · exact List.Sublist.refl c
  · cases w
    · exact List.Sublist.refl c
    · exact List.filter_sublist c

/-- A patch whose body has no id key leaves the list of stored ids
unchanged, whatever the target id and the write outcome. -/
theorem patch_keeps_ids (c : List Order) (i : Nat) (b : Body) (k : Clock) (w : Bool)
    (hid : b.id = none) :
    (storeAfter c w (patchOrder c i b k w).2).map Order.id = c.map Order.id := by
  simp only [patchOrder]
  split
  next h =>
    cases w
    · rfl
    · refine map_set_get_eq Order.id c _ h _ ?_
      simp [mergeOrder, hid]
  next h => rfl

/-- C1: a create request with an arbitrary partial body yields an order
whose absent items, total, type, customerName and customerPhone fields
take their defaults, whose status is pending regardless of any status in
the body, and whose createdAt is the server clock instant; the order is
appended to the stored collection and returned with status code 201. -/
theorem create_applies_defaults (c : List Order) (body : Body) (k : Clock)
    (hItems : body.items = none) (hTotal : body.total = none) (hType : body.type = none)
    (hName : body.customerName = none) (hPhone : body.customerPhone = none) :
    (newOrder body k).items = [] ∧
    (newOrder body k).total = 0 ∧
    (newOrder body k).type = "eat" ∧
    (newOrder body k).customerName = "" ∧
    (newOrder body k).customerPhone = "" ∧
    (newOrder body k).status = "pending" ∧
    (newOrder body k).createdAt = k.nowMs ∧
    (createOrder c body k true).1 = { status := 201, body := .order (newOrder body k) } ∧
    storeAfter c true (createOrder c body k true).2 = c ++ [newOrder body k] := by
  refine ⟨?_, ?_, ?_, ?_, ?_, rfl, rfl, rfl, rfl⟩ <;>
    simp [newOrder, hItems, hTotal, hType, hName, hPhone, jsOrList, jsOrInt, jsOrString]

/-- Witness for C1 at a concrete input: a body that supplies only a
status key, which the create handler ignores. -/
theorem create_applies_defaults_witness :
    (newOrder statusBody (clk 5)).items = [] ∧
    (newOrder statusBody (clk 5)).total = 0 ∧
    (newOrder statusBody (clk 5)).type = "eat" ∧
    (newOrder statusBody (clk 5)).customerName = "" ∧
    (newOrder statusBody (clk 5)).customerPhone = "" ∧
    (newOrder statusBody (clk 5)).status = "pending" ∧
    (newOrder statusBody (clk 5)).createdAt = (clk 5).nowMs ∧
    (createOrder [] statusBody (clk 5) true).1 =
      { status := 201, body := .order (newOrder statusBody (clk 5)) } ∧
    storeAfter [] true (createOrder [] statusBody (clk 5) true).2 =
      [] ++ [newOrder statusBody (clk 5)] :=
  create_applies_defaults [] statusBody (clk 5) rfl rfl rfl rfl rfl

/-- C2 counterexample: the PATCH merge is unguarded, so a body that
carries id and createdAt keys overwrites them in the stored order; with
the concrete order of id 1 and createdAt 10 the patched store records
id 2 and createdAt 99. -/
theorem patch_overwrites_id_createdAt :
    (storeAfter [orderA] true (patchOrder [orderA] 1 overwritingBody (clk 20) true).2).map
        (fun o => (o.id, o.createdAt)) = [(2, 99)] ∧
    (orderA.id, orderA.createdAt) = (1, 10) := by
  decide

/-- C2 amended: the id and createdAt of every stored order survive a
PATCH provided the body does not carry an id or createdAt key. -/
theorem patch_preserves_id_createdAt_when_absent (c : List Order) (i : Nat) (b : Body)
    (k : Clock) (w : Bool) (hid : b.id = none) (hcr : b.createdAt = none) :
    (storeAfter c w (patchOrder c i b k w).2).map (fun o => (o.id, o.createdAt)) =
      c.map (fun o => (o.id, o.createdAt)) := by
  simp only [patchOrder]
  split
  next h =>
    cases w
    · rfl
    · refine map_set_get_eq (fun o => (o.id, o.createdAt)) c _ h _ ?_
      simp [mergeOrder, hid, hcr]
  next h => rfl

/-- Witness for the amended C2 at a concrete input: a status-only body
against the singleton store. -/
theorem patch_preserves_id_createdAt_when_absent_witness :
    (storeAfter [orderA] true (patchOrder [orderA] 1 readyBody (clk 20) true).2).map
        (fun o => (o.id, o.createdAt)) =
      [orderA].map (fun o => (o.id, o.createdAt)) :=
  patch_preserves_id_createdAt_when_absent [orderA] 1 readyBody (clk 20) true rfl rfl

/-- C5 counterexample: the clear-all handler ignores the boolean that
writeOrders returns, so even with a failing store write it answers 200,
never 500, and the stored collection silently stays as it was. -/
theorem clear_write_failure_still_200 :
    clearAllOrders.1.status = 200 ∧
    clearAllOrders.1.status ≠ 500 ∧
    storeAfter [orderA] false clearAllOrders.2 = [orderA] := by
  refine ⟨rfl, ?_, rfl⟩
  decide

/-- C5 amended: clear-all always answers 200 with the success message,
whether or not the store write succeeds; on a failed write the stored
collection is simply left unchanged. -/
theorem clear_response_ignores_write_result (c : List Order) (w : Bool) :
    clearAllOrders.1 = { status := 200, body := .message "All orders cleared" } ∧
    storeAfter c w clearAllOrders.2 = (if w then [] else c) := by
  cases w
  · exact ⟨rfl, rfl⟩
  · exact ⟨rfl, rfl⟩

/-- C6: when the store read fails, the list endpoint degrades to the
empty collection and still answers 200; no error reaches the caller. -/
theorem list_read_failure_empty :
    listOrders .failure = { status := 200, body := .orders [] } ∧
    readOrders .failure = [] :=
  ⟨rfl, rfl⟩

/-- C9: clear-all is idempotent: it answers the success response, one
clear with a successful write empties the store, a second clear keeps it
equal to the state after one, and a subsequent list returns the empty
array. -/
theorem clear_idempotent (c : List Order) :
    clearAllOrders.1 = { status := 200, body := .message "All orders cleared" } ∧
    storeAfter c true clearAllOrders.2 = [] ∧
    storeAfter (storeAfter c true clearAllOrders.2) true clearAllOrders.2 =
      storeAfter c true clearAllOrders.2 ∧
    listOrders (.value (storeAfter (storeAfter c true clearAllOrders.2) true clearAllOrders.2)) =
      { status := 200, body := .orders [] } :=
  ⟨rfl, rfl, rfl, rfl⟩

/-- C10: an unparseable JSON body is treated as the empty object: a POST
still creates an order, with every field at its default, and a PATCH
merge changes nothing but the updatedAt stamp. -/
theorem malformed_body_as_empty (c : List Order) (o : Order) (k : Clock) :
    parseBody .malformed = emptyBody ∧
    newOrder (parseBody .malformed) k =
      { id := k.nowMs, items := [], total := 0, type := "eat", customerName := "",
        customerPhone := "", timestamp := k.localeTime, date := k.localeDate,
        status := "pending", createdAt := k.nowMs, updatedAt := none } ∧
    (createOrder c (parseBody .malformed) k true).1 =
      { status := 201, body := .order (newOrder (parseBody .malformed) k) } ∧
    storeAfter c true (createOrder c (parseBody .malformed) k true).2 =
      c ++ [newOrder (parseBody .malformed) k] ∧
    mergeOrder o (parseBody .malformed) k = { o with updatedAt := some k.nowMs } :=
  ⟨rfl, rfl, rfl, rfl, rfl⟩

/-- C3: a PATCH carrying only a status key of value ready, aimed at the
order the handler locates (index j, contents o), answers 200 with the
merged order, stores the collection with only position j replaced, the
replacement changes only the status and updatedAt fields, every other
position is untouched, and updatedAt is the clock instant, later than
the order's createdAt whenever the clock has advanced past creation. -/
theorem patch_ready_frame (os : List Order) (i j : Nat) (o : Order) (k : Clock)
    (hj : os.findIdx (fun o => o.id == i) = j)
    (hget : os[j]? = some o)
    (hclk : o.createdAt < k.nowMs) :
    (patchOrder os i readyBody k true).1 =
      { status := 200,
        body := .order { o with status := "ready", updatedAt := some k.nowMs } } ∧
    storeAfter os true (patchOrder os i readyBody k true).2 =
      os.set j { o with status := "ready", updatedAt := some k.nowMs } ∧
    mergeOrder o readyBody k = { o with status := "ready", updatedAt := some k.nowMs } ∧
    (∀ m, m ≠ j →
      (os.set j { o with status := "ready", updatedAt := some k.nowMs })[m]? = os[m]?) ∧
    ({ o with status := "ready", updatedAt := some k.nowMs } : Order).updatedAt =
      some k.nowMs ∧
    o.createdAt < k.nowMs := by
  subst hj
  obtain ⟨hlt, hgeteq⟩ := List.getElem?_eq_some.mp hget
  have hgo : os.get ⟨os.findIdx (fun o => o.id == i), hlt⟩ = o := by
    rw [List.get_eq_getElem]
    exact hgeteq
  have hmain : patchOrder os i readyBody k true =
      ({ status := 200,
         body := .order { o with status := "ready", updatedAt := some k.nowMs } },
       some (os.set (os.findIdx (fun o => o.id == i))
         { o with status := "ready", updatedAt := some k.nowMs })) := by
    simp only [patchOrder]
    rw [dif_pos hlt, hgo]
    rfl
  refine ⟨by rw [hmain], by rw [hmain]; rfl, rfl, ?_, rfl, hclk⟩
  intro m hm
  exact List.getElem?_set_ne (Ne.symm hm)

/-- Witness for C3 at a concrete input: the singleton store holding
orderA, patched at id 1 with the clock at instant 20. -/
theorem patch_ready_frame_witness :
    (patchOrder [orderA] 1 readyBody (clk 20) true).1 =
      { status := 200,
        body := .order { orderA with status := "ready", updatedAt := some (clk 20).nowMs } } ∧
    storeAfter [orderA] true (patchOrder [orderA] 1 readyBody (clk 20) true).2 =
      [orderA].set 0 { orderA with status := "ready", updatedAt := some (clk 20).nowMs } ∧
    mergeOrder orderA readyBody (clk 20) =
      { orderA with status := "ready", updatedAt := some (clk 20).nowMs } ∧
    (∀ m, m ≠ 0 →
      ([orderA].set 0
        { orderA with status := "ready", updatedAt := some (clk 20).nowMs })[m]? =
        [orderA][m]?) ∧
    ({ orderA with status := "ready", updatedAt := some (clk 20).nowMs } : Order).updatedAt =
      some (clk 20).nowMs ∧
    orderA.createdAt < (clk 20).nowMs :=
  patch_ready_frame [orderA] 1 0 orderA (clk 20) (by decide) (by decide) (by decide)

/-- C4 counterexample: the id-uniqueness invariant is not enforced, and
on a collection holding two orders of id 1 the delete filter removes
both, so the length drops by two, not by one as the claim states. -/
theorem delete_duplicate_ids_cex :
    ([orderA, orderA].any (fun o => o.id == 1)) = true ∧
    (storeAfter [orderA, orderA] true (deleteOrder [orderA, orderA] 1 true).2).length = 0 ∧
    [orderA, orderA].length - 1 = 1 := by
  decide

/-- C4 amended: deleting an id that occurs in the collection stores the
collection filtered of every order with that id (so the others are
unchanged and keep their relative order), answers 200 with the success
message, the id is absent afterwards, and when the id occurred exactly
once the length drops by exactly one. -/
theorem delete_filters_matching (c : List Order) (i : Nat)
    (h : ∃ o, o ∈ c ∧ o.id = i) :
    storeAfter c true (deleteOrder c i true).2 = c.filter (fun o => o.id != i) ∧
    (deleteOrder c i true).1 =
      { status := 200, body := .message "Order deleted successfully" } ∧
    (∀ o ∈ storeAfter c true (deleteOrder c i true).2, o.id ≠ i) ∧
    (c.countP (fun o => o.id == i) = 1 →
      (storeAfter c true (deleteOrder c i true).2).length = c.length - 1) := by
  have hlt : (c.filter (fun o => o.id != i)).length < c.length := by
    rw [List.length_filter_lt_length_iff_exists]
    obtain ⟨o, ho, hoi⟩ := h
    exact ⟨o, ho, by simp [hoi]⟩
  have hne : ¬ (c.length = (c.filter (fun o => o.id != i)).length) := by omega
  have hmain : deleteOrder c i true =
      ({ status := 200, body := .message "Order deleted successfully" },
       some (c.filter (fun o => o.id != i))) := by
    simp only [deleteOrder]
    rw [if_neg hne]
    rfl
  refine ⟨by rw [hmain]; rfl, by rw [hmain], ?_, ?_⟩
  · intro o ho
    rw [hmain] at ho
    have ho2 : o ∈ c.filter (fun o => o.id != i) := ho
    have hb := (List.mem_filter.mp ho2).2
    simpa using hb
  · intro hcount
    have hcompl : c.length =
        c.countP (fun o => o.id == i) + c.countP (fun o => o.id != i) := by
      have hsplit := List.length_eq_countP_add_countP (fun o : Order => o.id == i) c
      rw [hsplit]
      congr 1
      refine List.countP_congr ?_
      intro a _
      cases hbeq : a.id == i <;> simp [hbeq, bne]
    have hflen : (c.filter (fun o => o.id != i)).length =
        c.countP (fun o => o.id != i) :=
      (List.countP_eq_length_filter (fun o : Order => o.id != i) c).symm
    have hlen2 : (storeAfter c true (deleteOrder c i true).2).length =
        (c.filter (fun o => o.id != i)).length := by
      rw [hmain]
      rfl
    rw [hlen2, hflen]
    omega

/-- Witness for the amended C4 at a concrete input: deleting id 1 from
the singleton store holding orderA. -/
theorem delete_filters_matching_witness :
    storeAfter [orderA] true (deleteOrder [orderA] 1 true).2 =
      [orderA].filter (fun o => o.id != 1) ∧
    (deleteOrder [orderA] 1 true).1 =
      { status := 200, body := .message "Order deleted successfully" } ∧
    (∀ o ∈ storeAfter [orderA] true (deleteOrder [orderA] 1 true).2, o.id ≠ 1) ∧
    ([orderA].countP (fun o => o.id == 1) = 1 →
      (storeAfter [orderA] true (deleteOrder [orderA] 1 true).2).length =
        [orderA].length - 1) :=
  delete_filters_matching [orderA] 1 ⟨orderA, by simp, rfl⟩

/-- C7: when no stored order has the requested id, GET answers 404 with
an error body, PATCH and DELETE answer 404 with an error body and
attempt no store write, and the stored collection is unchanged. -/
theorem not_found_contract (c : List Order) (i : Nat)
    (h : ∀ o ∈ c, o.id ≠ i) :
    getOrder c i = { status := 404, body := .error "Order not found" } ∧
    (∀ b k w, patchOrder c i b k w =
      ({ status := 404, body := .error "Order not found" }, none)) ∧
    (∀ w, deleteOrder c i w =
      ({ status := 404, body := .error "Order not found" }, none)) ∧
    (∀ b k w, storeAfter c w (patchOrder c i b k w).2 = c) ∧
    (∀ w, storeAfter c w (deleteOrder c i w).2 = c) := by
  have hfalse : ∀ o ∈ c, (o.id == i) = false := by
    intro o ho
    exact beq_eq_false_iff_ne.mpr (h o ho)
  have hfind : c.find? (fun o => o.id == i) = none := by
    rw [List.find?_eq_none]
    intro x hx
    simp [hfalse x hx]
  have hidx : c.findIdx (fun o => o.id == i) = c.length :=
    findIdx_eq_length_of_all_false c hfalse
  have hfilter : c.filter (fun o => o.id != i) = c := by
    rw [List.filter_eq_self]
    intro a ha
    simpa using h a ha
  have hpatch : ∀ b k w, patchOrder c i b k w =
      ({ status := 404, body := .error "Order not found" }, none) := by
    intro b k w
    simp only [patchOrder]
    rw [hidx, dif_neg (Nat.lt_irrefl c.length)]
  have hdel : ∀ w, deleteOrder c i w =
      ({ status := 404, body := .error "Order not found" }, none) := by
    intro w
    simp only [deleteOrder]
    rw [hfilter, if_pos rfl]
  refine ⟨?_, hpatch, hdel, fun b k w => by rw [hpatch b k w]; rfl, fun w => by rw [hdel w]; rfl⟩
  simp only [getOrder, hfind]


/-- Witness for C7 at a concrete input: id 2 is absent from the
singleton store holding orderA (whose id is 1). -/
theorem not_found_contract_witness :
    getOrder [orderA] 2 = { status := 404, body := .error "Order not found" } ∧
    (∀ b k w, patchOrder [orderA] 2 b k w =
      ({ status := 404, body := .error "Order not found" }, none)) ∧
    (∀ w, deleteOrder [orderA] 2 w =
      ({ status := 404, body := .error "Order not found" }, none)) ∧
    (∀ b k w, storeAfter [orderA] w (patchOrder [orderA] 2 b k w).2 = [orderA]) ∧
    (∀ w, storeAfter [orderA] w (deleteOrder [orderA] 2 w).2 = [orderA]) :=
  not_found_contract [orderA] 2 (by decide)

/-- A trace reaching a collection with a duplicated id: two creates at
distinct instants, then a patch whose body overwrites the second order's
id with the first one's. -/
def dupTrace : List Op :=
  [ .create emptyBody (clk 1) true,
    .create emptyBody (clk 2) true,
    .patch 2 { emptyBody with id := some 1 } (clk 3) true ]

/-- C8 counterexample: the id-uniqueness invariant is not preserved by
arbitrary operation sequences; dupTrace reaches, from the empty store, a
collection in which two orders share id 1. -/
theorem reachable_duplicate_ids : ¬ idsUnique (run dupTrace) := by
  simp only [idsUnique]
  decide

/-- Invariant induction for the amended C8: starting from a collection
with distinct ids all below every future create instant, a trace whose
create instants are strictly increasing and whose patch bodies carry no
id key keeps the stored ids distinct. -/
theorem nodup_ids_foldl (ops : List Op) : ∀ (c : List Order),
    (c.map Order.id).Nodup →
    (∀ x ∈ c.map Order.id, ∀ t ∈ createTimes ops, x < t) →
    (createTimes ops).Pairwise (fun a b => a < b) →
    (∀ op ∈ ops, keepsId op = true) →
    ((ops.foldl applyOp c).map Order.id).Nodup := by
  induction ops with
  | nil =>
    intro c hc _ _ _
    simpa using hc
  | cons op rest ih =>
    intro c hc hb hp hk
    rw [List.foldl_cons]
    have hkrest : ∀ o ∈ rest, keepsId o = true :=
      fun o ho => hk o (List.mem_cons_of_mem op ho)
    cases op with
    | create b k w =>
      have hcons := List.pairwise_cons.mp (by simpa [createTimes] using hp)
      cases w with
      | false =>
        have happ : applyOp c (.create b k false) = c := rfl
        rw [happ]
        refine ih c hc ?_ hcons.2 hkrest
        intro x hx t ht
        exact hb x hx t (by simp [createTimes, ht])
      | true =>
        have happ : applyOp c (.create b k true) = c ++ [newOrder b k] := rfl
        rw [happ]
        refine ih _ ?_ ?_ hcons.2 hkrest
        · rw [List.map_append, List.nodup_append]
          refine ⟨hc, by simp, ?_⟩
          intro x hx hx2
          have hxk : x = k.nowMs := by simpa [newOrder] using hx2
          have hxlt := hb x hx k.nowMs (by simp [createTimes])
          omega
        · intro x hx t ht
          rw [List.map_append] at hx
          rcases List.mem_append.mp hx with hx1 | hx1
          · exact hb x hx1 t (by simp [createTimes, ht])
          · have hxk : x = k.nowMs := by simpa [newOrder] using hx1
            rw [hxk]
            exact hcons.1 t ht
    | patch i b k w =>
      have hid : b.id = none := by
        have hkop := hk _ (List.mem_cons_self _ rest)
        simpa [keepsId, Option.isNone_iff_eq_none] using hkop
      have hmap : (applyOp c (.patch i b k w)).map Order.id = c.map Order.id :=
        patch_keeps_ids c i b k w hid
      refine ih _ ?_ ?_ (by simpa [createTimes] using hp) hkrest
      · rw [hmap]
        exact hc
      · intro x hx t ht
        rw [hmap] at hx
        exact hb x hx t (by simpa [createTimes] using ht)
    | delete i w =>
      have hsub : (applyOp c (.delete i w)).Sublist c := delete_result_sublist c i w
      have hsubm := List.Sublist.map Order.id hsub
      refine ih _ (List.Nodup.sublist hsubm hc) ?_ (by simpa [createTimes] using hp) hkrest
      intro x hx t ht
      exact hb x (hsubm.subset hx) t (by simpa [createTimes] using ht)
    | clear w =>
      cases w with
      | false =>
        have happ : applyOp c (.clear false) = c := rfl
        rw [happ]
        refine ih c hc ?_ (by simpa [createTimes] using hp) hkrest
        intro x hx t ht
        exact hb x hx t (by simpa [createTimes] using ht)
      | true =>
        have happ : applyOp c (.clear true) = [] := rfl
        rw [happ]
        exact ih [] (by simp) (by simp) (by simpa [createTimes] using hp) hkrest

/-- C8 amended: in every collection reachable from the empty collection
by a sequence of create, update, delete and clear operations whose
create instants are strictly increasing and whose update bodies never
carry an id key, the id field is unique among the stored orders. -/
theorem ids_unique_of_disciplined_trace (ops : List Op)
    (hp : (createTimes ops).Pairwise (fun a b => a < b))
    (hk : ∀ op ∈ ops, keepsId op = true) :
    idsUnique (run ops) :=
  nodup_ids_foldl ops [] (by simp) (by simp) hp hk

/-- A disciplined trace exercising all four operations. -/
def goodTrace : List Op :=
  [ .create emptyBody (clk 1) true,
    .patch 1 readyBody (clk 5) true,
    .create emptyBody (clk 6) true,
    .delete 1 true ]

/-- Witness for the amended C8 at a concrete trace. -/
theorem ids_unique_of_disciplined_trace_witness :
    (createTimes goodTrace).Pairwise (fun a b => a < b) ∧
    (∀ op ∈ goodTrace, keepsId op = true) ∧
    idsUnique (run goodTrace) :=
  ⟨by decide, by decide, ids_unique_of_disciplined_trace goodTrace (by decide) (by decide)⟩

end FoodTruck
